import Mathlib

/-!
Verification of `src/target-program.c` (SpecterRealMonitor).

The C program allocates a buffer of `SIZE = 1000000` C `int`s, fills
`arr[i] = i * 2` for `i` in `[0, SIZE)`, sums the elements into a
`long long` accumulator, prints `Sum: <value>\n`, frees the buffer and
returns `0`; if `malloc` fails it returns `1` immediately.

The shallow embedding below models:
  - C `int` arithmetic as `Int` wrapped into `[-2^31, 2^31)` by `wrap32`,
    and `long long` arithmetic wrapped into `[-2^63, 2^63)` by `wrap64`;
  - the heap buffer as a `List Int`; the indeterminate contents that
    `malloc` returns are modelled by an arbitrary function
    `junk : Nat → Int` supplying the initial elements;
  - the two `for` loops as left folds over `List.range`;
  - the observable behaviour (exit code, stdout, and the ordered trace of
    allocation / print / free events) in `ProgResult`;
  - the linear lifecycle of the spec's state machine in `PState` with one
    step function per pipeline stage.
-/

/-- `#define SIZE 1000000` from the source. -/
def SIZE : Nat := 1000000

/-- `sizeof(int)` on the target platform: 4 bytes. -/
def sizeofInt : Nat := 4

/-- Wrap an integer into the value range of a signed 32-bit C `int`. -/
def wrap32 (x : Int) : Int := (x + 2 ^ 31) % 2 ^ 32 - 2 ^ 31

/-- Wrap an integer into the value range of a signed 64-bit C `long long`. -/
def wrap64 (x : Int) : Int := (x + 2 ^ 63) % 2 ^ 64 - 2 ^ 63

/-- The fill loop of the source (`for (i = 0; i < n; i++) arr[i] = i * 2;`):
each iteration stores the 32-bit value of `i * 2` at index `i`. -/
def populateLoop (arr : List Int) (n : Nat) : List Int :=
  (List.range n).foldl (fun a i => a.set i (wrap32 ((i : Int) * 2))) arr

/-- The summation loop of the source
(`long long sum = 0; for (i = 0; i < n; i++) sum += arr[i];`):
a left fold accumulating into a 64-bit signed accumulator. -/
def reduceLoop (arr : List Int) (n : Nat) : Int :=
  (List.range n).foldl (fun s i => wrap64 (s + arr.getD i 0)) 0

/-- The freshly `malloc`ed buffer of `n` elements with indeterminate
contents supplied by `junk`. -/
def freshBuffer (n : Nat) (junk : Nat → Int) : List Int :=
  (List.range n).map junk

/-- The value held by `sum` after both loops, for buffer size `n` and
initial heap contents `junk`. -/
def pipelineSum (n : Nat) (junk : Nat → Int) : Int :=
  reduceLoop (populateLoop (freshBuffer n junk) n) n

/-- The single line printed by `printf("Sum: %lld\n", sum)`. -/
def reportLine (sum : Int) : String := "Sum: " ++ toString sum ++ "\n"

/-- Observable events of one run, in program order. -/
inductive Event where
  | allocCall (bytes : Nat) (ok : Bool)
  | printLine (s : String)
  | freeCall
deriving DecidableEq, Repr

/-- Observable outcome of one run: exit code, stdout, and the ordered
trace of allocation / print / free events. -/
structure ProgResult where
  exitCode : Nat
  stdout : String
  events : List Event
deriving DecidableEq, Repr

/-- `main` of the source, generalised over the buffer size `n` (the source
fixes `n = SIZE`).  `allocOk` is the outcome of the `malloc` request and
`junk` gives the indeterminate initial contents of the allocated block. -/
def cMainN (n : Nat) (allocOk : Bool) (junk : Nat → Int) : ProgResult :=
  if allocOk then
    let sum := pipelineSum n junk
    let line := reportLine sum
    { exitCode := 0
      stdout := line
      events := [Event.allocCall (n * sizeofInt) true, Event.printLine line,
                 Event.freeCall] }
  else
    { exitCode := 1
      stdout := ""
      events := [Event.allocCall (n * sizeofInt) false] }

/-- `main` of the source with the fixed `SIZE`. -/
def cMain (allocOk : Bool) (junk : Nat → Int) : ProgResult :=
  cMainN SIZE allocOk junk

/-- States of the linear lifecycle: Start, the failure state, and one
state per completed pipeline stage, carrying the live buffer. -/
inductive PState where
  | start
  | failed
  | allocated (arr : List Int)
  | populated (arr : List Int)
  | reduced (arr : List Int) (sum : Int)
  | reported (arr : List Int) (sum : Int) (out : String)
  | released (sum : Int) (out : String)
deriving Repr

/-- The `malloc` step: on success the buffer of `n` indeterminate elements
is acquired, on failure the program is in the terminal failure state. -/
def stepAlloc (n : Nat) (ok : Bool) (junk : Nat → Int) : PState :=
  if ok then PState.allocated (freshBuffer n junk) else PState.failed

/-- The fill step; it only acts on an allocated buffer. -/
def stepPopulate (n : Nat) : PState → PState
  | PState.allocated arr => PState.populated (populateLoop arr n)
  | s => s

/-- The summation step; it only acts on a populated buffer. -/
def stepReduce (n : Nat) : PState → PState
  | PState.populated arr => PState.reduced arr (reduceLoop arr n)
  | s => s

/-- The print step; it only acts on a reduced state. -/
def stepReport : PState → PState
  | PState.reduced arr sum => PState.reported arr sum (reportLine sum)
  | s => s

/-- The `free` step: the buffer is released after the report. -/
def stepRelease : PState → PState
  | PState.reported _ sum out => PState.released sum out
  | s => s

/-- The whole run as the linear chain of steps. -/
def runMachine (n : Nat) (ok : Bool) (junk : Nat → Int) : PState :=
  stepRelease (stepReport (stepReduce n (stepPopulate n (stepAlloc n ok junk))))

/-- The length of the buffer held by a state, when one is live. -/
def bufLen : PState → Option Nat
  | PState.allocated arr => some arr.length
  | PState.populated arr => some arr.length
  | PState.reduced arr _ => some arr.length
  | PState.reported arr _ _ => some arr.length
  | _ => none

/-! ### Arithmetic helper lemmas -/

/-- 32-bit wrapping is the identity inside the `int` value range. -/
lemma wrap32_eq_self (x : Int) (h1 : -2 ^ 31 ≤ x) (h2 : x < 2 ^ 31) :
    wrap32 x = x := by
  unfold wrap32
  rw [Int.emod_eq_of_lt (by omega) (by omega)]
  omega

/-- 64-bit wrapping is the identity inside the `long long` value range. -/
lemma wrap64_eq_self (x : Int) (h1 : -2 ^ 63 ≤ x) (h2 : x < 2 ^ 63) :
    wrap64 x = x := by
  unfold wrap64
  rw [Int.emod_eq_of_lt (by omega) (by omega)]
  omega

/-! ### Facts about the fill loop -/

/-- Unfolding one iteration of the fill loop. -/
lemma populateLoop_succ (arr : List Int) (n : Nat) :
    populateLoop arr (n + 1)
      = (populateLoop arr n).set n (wrap32 ((n : Int) * 2)) := by
  unfold populateLoop
  rw [show n + 1 = Nat.succ n from rfl, List.range_succ, List.foldl_append]
  rfl

/-- The fill loop never changes the buffer's length. -/
lemma populateLoop_length (arr : List Int) (n : Nat) :
    (populateLoop arr n).length = arr.length := by
  induction n with
  | zero => rfl
  | succ m ih => rw [populateLoop_succ, List.length_set, ih]

/-- After the fill loop has passed index `i`, the element at `i` is the
32-bit value of `i * 2`. -/
lemma populateLoop_getElem? (arr : List Int) (n : Nat) (hn : n ≤ arr.length)
    (i : Nat) (hi : i < n) :
    (populateLoop arr n)[i]? = some (wrap32 ((i : Int) * 2)) := by
  induction n with
  | zero => omega
  | succ m ih =>
    rw [populateLoop_succ]
    rcases Nat.lt_or_ge i m with hlt | hge
    · rw [List.getElem?_set_ne (by omega), ih (by omega) hlt]
    · have hi_eq : i = m := by omega
      subst hi_eq
      exact List.getElem?_set_self (by rw [populateLoop_length]; omega)

/-- The result of the fill loop does not depend on the buffer's initial
contents, only on its length. -/
lemma populateLoop_junk_free (a b : List Int) (n : Nat)
    (hlen : a.length = b.length) (hn : a.length = n) :
    populateLoop a n = populateLoop b n := by
  apply List.ext_getElem?
  intro i
  rcases Nat.lt_or_ge i n with hi | hi
  · rw [populateLoop_getElem? a n (by omega) i hi,
        populateLoop_getElem? b n (by omega) i hi]
  · rcases Nat.lt_or_ge i a.length with hia | hia
    · omega
    · rw [List.getElem?_eq_none (by rw [populateLoop_length]; omega),
          List.getElem?_eq_none (by rw [populateLoop_length]; omega)]

/-! ### Facts about the summation loop -/

/-- Unfolding one iteration of the summation loop. -/
lemma reduceLoop_succ (arr : List Int) (n : Nat) :
    reduceLoop arr (n + 1) = wrap64 (reduceLoop arr n + arr.getD n 0) := by
  unfold reduceLoop
  rw [show n + 1 = Nat.succ n from rfl, List.range_succ, List.foldl_append]
  rfl

/-- Closed form of the summation loop: if every element read is `2 * i`
and the final sum fits in 64 bits, the accumulator ends at `n * (n - 1)`
with no wraparound at any step. -/
lemma reduceLoop_closed (arr : List Int) (n : Nat)
    (helem : ∀ i, i < n → arr.getD i 0 = (i : Int) * 2)
    (hbound : (n : Int) * n < 2 ^ 63) :
    reduceLoop arr n = (n : Int) * ((n : Int) - 1) := by
  induction n with
  | zero => simp [reduceLoop]
  | succ m ih =>
    have hm : (m : Int) * m < 2 ^ 63 := by
      have := hbound
      push_cast at this ⊢
      nlinarith [Int.natCast_nonneg m]
    rw [reduceLoop_succ, helem m (by omega),
        ih (fun i hi => helem i (by omega)) hm]
    have hmn : (0 : Int) ≤ (m : Int) := Int.natCast_nonneg m
    have hval : (m : Int) * ((m : Int) - 1) + (m : Int) * 2
        = ((m : Int) + 1) * (((m : Int) + 1) - 1) := by ring
    rw [hval, wrap64_eq_self]
    · push_cast
      ring
    · nlinarith
    · push_cast at hbound
      nlinarith

/-- The exact (unwrapped) sum of `2 * i` over `[0, n)`. -/
lemma listSum_closed (n : Nat) :
    (((List.range n).map (fun i : Nat => (i : Int) * 2)).sum)
      = (n : Int) * ((n : Int) - 1) := by
  induction n with
  | zero => simp
  | succ m ih =>
    rw [show m + 1 = Nat.succ m from rfl, List.range_succ, List.map_append,
        List.sum_append, ih]
    push_cast
    simp
    ring

/-! ### Bridge lemmas at concrete sizes -/

/-- A fresh buffer has the requested length. -/
lemma freshBuffer_length (n : Nat) (junk : Nat → Int) :
    (freshBuffer n junk).length = n := by
  simp [freshBuffer]

/-- For buffer sizes up to `2 ^ 30` (so `i * 2` fits in a 32-bit `int`),
the populated buffer holds exactly `i * 2` at index `i`. -/
lemma populated_getD (n : Nat) (junk : Nat → Int) (hn : n ≤ 2 ^ 30)
    (i : Nat) (hi : i < n) :
    (populateLoop (freshBuffer n junk) n).getD i 0 = (i : Int) * 2 := by
  rw [List.getD_eq_getElem?_getD,
      populateLoop_getElem? _ _ (by rw [freshBuffer_length]) i hi]
  rw [Option.getD_some]
  apply wrap32_eq_self
  · have h0 : (0 : Int) ≤ (i : Int) := Int.natCast_nonneg i
    have h31 : (2 : Int) ^ 31 = 2147483648 := by norm_num
    omega
  · have hii : (i : Int) < (n : Int) := by exact_mod_cast hi
    have hnn : (n : Int) ≤ 2 ^ 30 := by exact_mod_cast hn
    have h30 : (2 : Int) ^ 30 = 1073741824 := by norm_num
    have h31 : (2 : Int) ^ 31 = 2147483648 := by norm_num
    omega

/-- Closed form of the whole pipeline for any buffer size up to `2 ^ 30`
and any initial heap contents: the final accumulator is `n * (n - 1)`. -/
lemma pipelineSum_closed (n : Nat) (junk : Nat → Int) (hn : n ≤ 2 ^ 30) :
    pipelineSum n junk = (n : Int) * ((n : Int) - 1) := by
  unfold pipelineSum
  apply reduceLoop_closed
  · exact fun i hi => populated_getD n junk hn i hi
  · have hnn : (n : Int) ≤ 2 ^ 30 := by exact_mod_cast hn
    have h0 : (0 : Int) ≤ (n : Int) := Int.natCast_nonneg n
    nlinarith

/-- The concrete value of the accumulator for the source's `SIZE`. -/
lemma pipelineSum_SIZE (junk : Nat → Int) :
    pipelineSum SIZE junk = 999999000000 := by
  rw [pipelineSum_closed SIZE junk (by norm_num [SIZE])]
  norm_num [SIZE]

/-- The report line printed for the source's `SIZE`. -/
lemma reportLine_SIZE (junk : Nat → Int) :
    reportLine (pipelineSum SIZE junk) = "Sum: 999999000000\n" := by
  rw [pipelineSum_SIZE]
  rfl

/-- Each index of `[0, n)` occurs exactly once in the fill loop's index
sequence: each element is written exactly once. -/
lemma range_count_one (n : Nat) (i : Nat) (hi : i < n) :
    (List.range n).count i = 1 :=
  List.count_eq_one_of_mem (List.nodup_range n) (List.mem_range.mpr hi)

/-- `true` exactly on the `free` event (used to count releases). -/
def isFree : Event → Bool
  | Event.freeCall => true
  | _ => false

/-! ### Claim theorems -/

/-- C1: on the successful path the accumulator value reported by the
program equals the closed form `N * (N - 1)`; for `N = 1000000` the final
sum is exactly `999999000000`, equal to the sum of `2 * i` over all
`i ∈ [0, N)`. -/
theorem C1_sum_equals_closed_form (junk : Nat → Int) :
    pipelineSum SIZE junk = (SIZE : Int) * ((SIZE : Int) - 1)
      ∧ pipelineSum SIZE junk = 999999000000
      ∧ pipelineSum SIZE junk
          = ((List.range SIZE).map (fun i : Nat => 2 * (i : Int))).sum := by
  refine ⟨?_, pipelineSum_SIZE junk, ?_⟩
  · rw [pipelineSum_SIZE junk]
    norm_num [SIZE]
  · rw [pipelineSum_SIZE junk,
        show (fun i : Nat => 2 * (i : Int)) = (fun i : Nat => (i : Int) * 2)
          from by funext i; ring,
        listSum_closed SIZE]
    norm_num [SIZE]

/-- C2: with no arguments, no input, and a successful allocation, the
program's sole output is the single stdout line `Sum: 999999000000\n` and
the exit code is `0`; the event trace holds exactly one print. -/
theorem C2_success_output (junk : Nat → Int) :
    cMain true junk
      = { exitCode := 0
          stdout := "Sum: 999999000000\n"
          events := [Event.allocCall (SIZE * sizeofInt) true,
                     Event.printLine "Sum: 999999000000\n",
                     Event.freeCall] } := by
  show ({ exitCode := 0
          stdout := reportLine (pipelineSum SIZE junk)
          events := [Event.allocCall (SIZE * sizeofInt) true,
                     Event.printLine (reportLine (pipelineSum SIZE junk)),
                     Event.freeCall] } : ProgResult) = _
  rw [reportLine_SIZE junk]

/-- C3: immediately after the populate step every element `i < N` of the
buffer equals `2 * i` (for any initial heap contents, so the step is a
total, pure function of the index), index `i` is written exactly once
(it occurs once in the loop's index sequence), and the buffer's length is
unchanged. -/
theorem C3_populate_correct (junk : Nat → Int) (i : Nat) (hi : i < SIZE) :
    (populateLoop (freshBuffer SIZE junk) SIZE).getD i 0 = 2 * (i : Int)
      ∧ (List.range SIZE).count i = 1
      ∧ (populateLoop (freshBuffer SIZE junk) SIZE).length = SIZE := by
  refine ⟨?_, range_count_one SIZE i hi, ?_⟩
  · rw [populated_getD SIZE junk (by norm_num [SIZE]) i hi]
    ring
  · rw [populateLoop_length, freshBuffer_length]

/-- Witness for C3 at `i = 7` with an all-zero fresh heap. -/
theorem C3_populate_correct_witness :
    (populateLoop (freshBuffer SIZE (fun _ => 0)) SIZE).getD 7 0
        = 2 * ((7 : Nat) : Int)
      ∧ (List.range SIZE).count 7 = 1
      ∧ (populateLoop (freshBuffer SIZE (fun _ => 0)) SIZE).length = SIZE :=
  C3_populate_correct (fun _ => 0) 7 (by norm_num [SIZE])

/-- C4: exactly when allocation fails the program exits with status `1`,
prints nothing, performs no fill, no summation and no release (the
lifecycle ends in the failure state with no later stage reached), and the
only exit codes are `0` (success) and `1` (failure). -/
theorem C4_allocation_failure (junk : Nat → Int) :
    (cMain false junk).exitCode = 1
      ∧ (cMain false junk).stdout = ""
      ∧ (cMain false junk).events = [Event.allocCall (SIZE * sizeofInt) false]
      ∧ runMachine SIZE false junk = PState.failed
      ∧ (∀ ok : Bool, (cMain ok junk).exitCode = if ok then 0 else 1) := by
  refine ⟨rfl, rfl, rfl, rfl, ?_⟩
  intro ok
  cases ok <;> rfl

/-- C5: the accumulator (a 64-bit signed `long long`) represents the sum
of all `N` elements exactly: the wrapped computation coincides with the
exact mathematical sum, the value is nonnegative and below `2 ^ 63`, and
64-bit wrapping leaves it unchanged — it is never wrapped or truncated. -/
theorem C5_accumulator_no_overflow (junk : Nat → Int) :
    pipelineSum SIZE junk
        = ((List.range SIZE).map (fun i : Nat => (i : Int) * 2)).sum
      ∧ 0 ≤ pipelineSum SIZE junk
      ∧ pipelineSum SIZE junk < 2 ^ 63
      ∧ wrap64 (pipelineSum SIZE junk) = pipelineSum SIZE junk := by
  have h := pipelineSum_SIZE junk
  refine ⟨?_, ?_, ?_, ?_⟩
  · rw [h, listSum_closed SIZE]
    norm_num [SIZE]
  · rw [h]
    norm_num
  · rw [h]
    norm_num
  · rw [h]
    exact wrap64_eq_self _ (by norm_num) (by norm_num)

/-- C6: on every successful run the buffer is released exactly once and
the release is the last event, after the report; on the failure path no
release happens.  No run double-frees or leaks the buffer. -/
theorem C6_release_once_after_report (junk : Nat → Int) :
    (cMain true junk).events
        = [Event.allocCall (SIZE * sizeofInt) true,
           Event.printLine (reportLine (pipelineSum SIZE junk)),
           Event.freeCall]
      ∧ ((cMain true junk).events.countP isFree = 1)
      ∧ ((cMain false junk).events.countP isFree = 0)
      ∧ runMachine SIZE true junk
          = PState.released (pipelineSum SIZE junk)
              (reportLine (pipelineSum SIZE junk)) := by
  exact ⟨rfl, rfl, rfl, rfl⟩

/-- C7: the program is deterministic: for the fixed `N` two runs with the
same allocation outcome produce identical observable results (exit code,
stdout and event trace), whatever indeterminate heap contents each run's
allocation returned. -/
theorem C7_deterministic (j1 j2 : Nat → Int) (ok : Bool) :
    cMain ok j1 = cMain ok j2 := by
  have hf : ∀ j : Nat → Int, cMain false j
      = { exitCode := 1
          stdout := ""
          events := [Event.allocCall (SIZE * sizeofInt) false] } :=
    fun _ => rfl
  cases ok
  · rw [hf j1, hf j2]
  · simp only [cMain, cMainN, pipelineSum_SIZE]

/-- C8: once allocation succeeds the buffer's length is exactly
`N = 1000000` in every later state of the linear lifecycle — no stage
(populate, reduce, report) resizes it, and after release no buffer is
live. -/
theorem C8_length_invariant (junk : Nat → Int) :
    bufLen (stepAlloc SIZE true junk) = some SIZE
      ∧ bufLen (stepPopulate SIZE (stepAlloc SIZE true junk)) = some SIZE
      ∧ bufLen (stepReduce SIZE
          (stepPopulate SIZE (stepAlloc SIZE true junk))) = some SIZE
      ∧ bufLen (stepReport (stepReduce SIZE
          (stepPopulate SIZE (stepAlloc SIZE true junk)))) = some SIZE
      ∧ bufLen (runMachine SIZE true junk) = none := by
  simp [stepAlloc, stepPopulate, stepReduce, stepReport, stepRelease,
        runMachine, bufLen, populateLoop_length, freshBuffer_length]

/-- C9: for the boundary size `N = 0` the loops perform no iterations,
the pipeline leaves the buffer untouched and the sum is `0`; for `N = 1`
the run succeeds with output `Sum: 0\n`. -/
theorem C9_boundary_sizes (junk : Nat → Int) (arr : List Int) :
    pipelineSum 0 junk = 0
      ∧ populateLoop arr 0 = arr
      ∧ reduceLoop arr 0 = 0
      ∧ (cMainN 0 true junk).stdout = "Sum: 0\n"
      ∧ (cMainN 1 true junk).stdout = "Sum: 0\n"
      ∧ (cMainN 1 true junk).exitCode = 0 := by
  have h1 : pipelineSum 1 junk = 0 := by
    rw [pipelineSum_closed 1 junk (by norm_num)]
    norm_num
  refine ⟨rfl, rfl, rfl, rfl, ?_, rfl⟩
  show reportLine (pipelineSum 1 junk) = "Sum: 0\n"
  rw [h1]
  rfl

/-- C10: every array access of both loops is in bounds (each loop index
`i < N` is below the buffer's length, before and after the fill), the
stored value `i * 2` (at most `1999998`) incurs no 32-bit overflow, and
the requested allocation is `SIZE * sizeof(int) = 4000000` bytes. -/
theorem C10_memory_safety (junk : Nat → Int) (i : Nat) (hi : i < SIZE) :
    i < (freshBuffer SIZE junk).length
      ∧ i < (populateLoop (freshBuffer SIZE junk) SIZE).length
      ∧ wrap32 ((i : Int) * 2) = (i : Int) * 2
      ∧ (i : Int) * 2 ≤ 1999998
      ∧ SIZE * sizeofInt = 4000000 := by
  have hi6 : i < 1000000 := hi
  have hii : (i : Int) < 1000000 := by exact_mod_cast hi6
  have h0 : (0 : Int) ≤ (i : Int) := Int.natCast_nonneg i
  refine ⟨?_, ?_, ?_, by omega, rfl⟩
  · rw [freshBuffer_length]
    exact hi
  · rw [populateLoop_length, freshBuffer_length]
    exact hi
  · apply wrap32_eq_self
    · have h31 : (2 : Int) ^ 31 = 2147483648 := by norm_num
      omega
    · have h31 : (2 : Int) ^ 31 = 2147483648 := by norm_num
      omega

/-- Witness for C10 at `i = 123456` with an all-zero fresh heap. -/
theorem C10_memory_safety_witness :
    123456 < (freshBuffer SIZE (fun _ => 0)).length
      ∧ 123456 < (populateLoop (freshBuffer SIZE (fun _ => 0)) SIZE).length
      ∧ wrap32 (((123456 : Nat) : Int) * 2) = ((123456 : Nat) : Int) * 2
      ∧ ((123456 : Nat) : Int) * 2 ≤ 1999998
      ∧ SIZE * sizeofInt = 4000000 :=
  C10_memory_safety (fun _ => 0) 123456 (by norm_num [SIZE])
